import Mathlib

/-!
# Egg Guardian — telemetry ingestion and alert-evaluation pipeline

A shallow embedding of the core pipeline of the `egg-guardian` repository:

* the ORM rows of `services/api/app/models/__init__.py` become Lean structures
  over lists (temperatures as `ℚ`, timestamps as abstract `Int` instants);
* `ConnectionManager` of `services/api/app/routers/telemetry.py` becomes an
  association list from channel key to connection list, mirroring the Python
  `dict[str, list[WebSocket]]`;
* `MQTTService._handle_message` / `_persist_telemetry` / `_check_alerts` of
  `services/api/app/services/mqtt.py` become pure state-passing functions that
  also emit an ordered trace of persistence and broadcast events;
* the alert endpoints of `services/api/app/routers/alerts.py` become functions
  on the database state.

Exceptions that the Python code catches (JSON decode errors, `KeyError`,
`ValueError` from `float()` / `datetime.fromisoformat`) are modelled as
`Option`/`Except` values; a caught exception makes the handler return with the
state unchanged, exactly as the `except` clauses at the bottom of
`_handle_message` do.
-/

namespace EggGuardian

/-! ## Data model (src/services/api/app/models/__init__.py) -/

/-- `Device` row: integer primary key `id`, external string `device_id`,
display `name`, active flag. (Owner and timestamps are irrelevant to the
claims and omitted.) -/
structure Device where
  id : Nat
  device_id : String
  name : String
  is_active : Bool
  deriving Repr, DecidableEq

/-- `Telemetry` row: one reading `{device FK, temp_c, recorded_at}`. -/
structure Telemetry where
  id : Nat
  device_id : Nat
  temp_c : ℚ
  recorded_at : Int
  deriving Repr, DecidableEq

/-- `AlertRule` row: per-device threshold pair with an active flag. -/
structure AlertRule where
  id : Nat
  device_id : Nat
  temp_min : ℚ
  temp_max : ℚ
  is_active : Bool
  deriving Repr, DecidableEq

/-- `Alert` row, as created by `_check_alerts` and mutated by the alert
endpoints. `triggered_at` is the server clock at insert time
(`server_default=func.now()`), `acknowledged_at` is nullable. -/
structure Alert where
  id : Nat
  device_id : Nat
  rule_id : Nat
  temp_c : ℚ
  alert_type : String
  message : String
  is_acknowledged : Bool
  triggered_at : Int
  acknowledged_at : Option Int
  deriving Repr, DecidableEq

/-- The database state: one list per table, plus autoincrement counters for
the integer primary keys. -/
structure DB where
  devices : List Device
  telemetry : List Telemetry
  rules : List AlertRule
  alerts : List Alert
  nextDeviceId : Nat
  nextTelemetryId : Nat
  nextAlertId : Nat
  deriving Repr, DecidableEq

/-! ## WebSocket connection manager (src/services/api/app/routers/telemetry.py) -/

/-- A viewer connection. `broken` models a closed socket: `send_json` on it
raises, which `broadcast_to_device` swallows with `except Exception: pass`. -/
structure Conn where
  id : Nat
  broken : Bool
  deriving Repr, DecidableEq

/-- Outbound JSON events sent over WebSocket connections by the pipeline. -/
inductive WsMsg where
  | telemetry (device_id : String) (temp_c : ℚ) (recorded_at : Int)
  | alert (device_id : String) (alert_type : String) (temp_c : ℚ) (message : String)
  deriving Repr, DecidableEq

/-- The `active_connections : dict[str, list[WebSocket]]` mapping, as an
association list preserving insertion order. -/
abbrev Registry := List (String × List Conn)

/-- Python `device_id in self.active_connections` / indexing: first entry for
the key, if any. -/
def lookupKey (m : Registry) (k : String) : Option (List Conn) :=
  (m.find? (fun e => e.1 == k)).map (fun e => e.2)

/-- Python `self.active_connections[device_id] = v` on an existing key. -/
def setKey (m : Registry) (k : String) (v : List Conn) : Registry :=
  m.map (fun e => if e.1 == k then (k, v) else e)

/-- Python `del self.active_connections[device_id]`. -/
def delKey (m : Registry) (k : String) : Registry :=
  m.filter (fun e => !(e.1 == k))

/-- `ConnectionManager` holds its `active_connections` map. -/
structure ConnectionManager where
  active_connections : Registry
  deriving Repr, DecidableEq

namespace ConnectionManager

/-- `ConnectionManager.connect`: create an empty list for an unseen key,
then append the connection (the `websocket.accept()` call has no state
effect here). -/
def connect (cm : ConnectionManager) (ws : Conn) (device_id : String) :
    ConnectionManager :=
  match lookupKey cm.active_connections device_id with
  | none => ⟨cm.active_connections ++ [(device_id, [ws])]⟩
  | some l => ⟨setKey cm.active_connections device_id (l ++ [ws])⟩

/-- `ConnectionManager.disconnect`: `list.remove` drops the first occurrence
and raises `ValueError` (modelled as `.error`) when the connection is not in
the list; when the list becomes empty the key is deleted. A missing key is a
no-op (`if device_id in self.active_connections`). -/
def disconnect (cm : ConnectionManager) (ws : Conn) (device_id : String) :
    Except Unit ConnectionManager :=
  match lookupKey cm.active_connections device_id with
  | none => .ok cm
  | some l =>
    if ws ∈ l then
      let l2 := l.erase ws
      if l2.isEmpty then .ok ⟨delKey cm.active_connections device_id⟩
      else .ok ⟨setKey cm.active_connections device_id l2⟩
    else .error ()

/-- `websocket.send_json`: fails on a broken connection, otherwise delivers
`(connection id, message)`. -/
def sendJson (c : Conn) (msg : WsMsg) : Except Unit (Nat × WsMsg) :=
  if c.broken then .error () else .ok (c.id, msg)

/-- `ConnectionManager.broadcast_to_device`: try to send to every connection
registered under the key; a failed send is swallowed (`except Exception:
pass`) and iteration continues. Returns the successful deliveries in order. -/
def broadcast_to_device (cm : ConnectionManager) (device_id : String)
    (msg : WsMsg) : List (Nat × WsMsg) :=
  match lookupKey cm.active_connections device_id with
  | none => []
  | some l =>
    l.foldl (fun acc c =>
      match sendJson c msg with
      | .ok d => acc ++ [d]
      | .error _ => acc) []

end ConnectionManager

/-! ## JSON payload values and Python coercions -/

/-- JSON values that can appear in a payload field after `json.loads`. -/
inductive JVal where
  | jnum (q : ℚ)
  | jstr (s : String)
  | jbool (b : Bool)
  | jnull
  deriving Repr, DecidableEq

/-- Split a character list at every occurrence of `sep`, keeping empty
segments, exactly like Python `str.split(sep)` with a one-character
separator. -/
def splitCharAux (sep : Char) : List Char → List Char → List (List Char)
  | [], acc => [acc.reverse]
  | c :: rest, acc =>
    if c = sep then acc.reverse :: splitCharAux sep rest []
    else splitCharAux sep rest (c :: acc)

/-- Python `topic.split("/")`. -/
def pySplitSlash (s : String) : List String :=
  (splitCharAux '/' s.data []).map String.mk

/-- Python `ts_str.replace("Z", "+00:00")` (the pattern is one character,
so substring replacement is character replacement). -/
def replaceZ (s : String) : String :=
  String.mk (s.data.foldr (fun c acc =>
    if c = 'Z' then '+' :: '0' :: '0' :: ':' :: '0' :: '0' :: acc
    else c :: acc) [])

/-- Python `str.strip()`: drop whitespace from both ends. -/
def pyTrim (cs : List Char) : List Char :=
  ((cs.dropWhile (fun c => c.isWhitespace)).reverse.dropWhile
    (fun c => c.isWhitespace)).reverse

/-- Digit run to a natural number; `none` on a non-digit or an empty run. -/
def parseDigits (cs : List Char) : Option Nat :=
  if cs.isEmpty then none
  else cs.foldlM (fun acc c =>
    if c.isDigit then some (acc * 10 + (c.toNat - 48)) else none) 0

/-- Model of Python `float(s)` for a string: optional sign, decimal digits
with an optional fractional part (`"1"`, `"-3.5"`, `"1."`, `".5"`); anything
else (in particular `"not-a-number"`) raises `ValueError`, modelled as
`none`. Exponents, `inf`/`nan` and similar accepted spellings are outside
the inputs any claim touches and are not modelled. -/
def strFloat (s : String) : Option ℚ :=
  let cs := pyTrim s.data
  let signed : ℚ × List Char :=
    match cs with
    | '-' :: rest => (-1, rest)
    | '+' :: rest => (1, rest)
    | _ => (1, cs)
  match splitCharAux '.' signed.2 [] with
  | [ip] => (parseDigits ip).map (fun n => signed.1 * n)
  | [ip, fp] =>
    if ip.isEmpty && fp.isEmpty then none
    else
      match (if ip.isEmpty then some 0 else parseDigits ip),
            (if fp.isEmpty then some 0 else parseDigits fp) with
      | some i, some f =>
        some (signed.1 * ((i : ℚ) + (f : ℚ) / ((10 : ℚ) ^ fp.length)))
      | _, _ => none
  | _ => none

/-- Model of Python `float(v)` on a JSON value: numbers pass through,
booleans coerce (`float(True) == 1.0`), strings go through `strFloat`,
`null` raises `TypeError` (`none`). -/
def pyFloat : JVal → Option ℚ
  | .jnum q => some q
  | .jbool b => some (if b then 1 else 0)
  | .jstr s => strFloat s
  | .jnull => none

/-- Python truthiness of a JSON value, as used by `if ts_str:`. -/
def truthy : JVal → Bool
  | .jnum q => q != 0
  | .jstr s => s != ""
  | .jbool b => b
  | .jnull => false

/-! ## Inbound MQTT messages -/

/-- The fields `_handle_message` reads from a decoded JSON object payload:
`payload.get("device_id", ...)`, `payload["temp_c"]`, `payload.get("ts")`. -/
structure PayloadObj where
  device_id : Option String
  temp_c : Option JVal
  ts : Option JVal
  deriving Repr, DecidableEq

/-- Result of `json.loads(message.payload.decode())`: either a decode error
(`json.JSONDecodeError`, caught by the handler) or an object. -/
inductive PayloadParse where
  | invalid
  | obj (p : PayloadObj)
  deriving Repr, DecidableEq

/-- An inbound MQTT message: its topic string and decoded payload. -/
structure MqttMessage where
  topic : String
  payload : PayloadParse
  deriving Repr, DecidableEq

/-- The `ts` handling of `_handle_message`: absent or falsy `ts` falls back
to the current server time `now`; a truthy string goes through
`datetime.fromisoformat` after the `"Z" → "+00:00"` replacement (the parser
`parseIso` is abstract; `none` is a raised `ValueError`); a truthy
non-string raises `AttributeError` on `.replace` (`none`). -/
def parseTsField (parseIso : String → Option Int) (now : Int) :
    Option JVal → Option Int
  | none => some now
  | some v =>
    if truthy v then
      match v with
      | .jstr s => parseIso (replaceZ s)
      | _ => none
    else some now

/-! ## Trace of persistence and broadcast effects -/

/-- One observable effect of processing a message, in execution order:
a flushed insert, a successful WebSocket delivery (connection id, channel
key, event), or the final session commit. -/
inductive TraceEv where
  | persistDevice (d : Device)
  | persistReading (t : Telemetry)
  | persistAlert (a : Alert)
  | deliver (connId : Nat) (channel : String) (msg : WsMsg)
  | commit
  deriving Repr, DecidableEq

/-- Wrap the successful deliveries of one `broadcast_to_device` call as
trace events on the given channel key. -/
def deliveries (channel : String) (ds : List (Nat × WsMsg)) : List TraceEv :=
  ds.map (fun d => .deliver d.1 channel d.2)

/-! ## Alert evaluation (MQTTService._check_alerts) -/

/-- The per-rule `if/elif` of `_check_alerts`: strictly below the minimum
gives `"low"`, otherwise strictly above the maximum gives `"high"`,
otherwise no alert; the message text is built from the literal values. -/
def evalRule (temp_c : ℚ) (rule : AlertRule) : Option (String × String) :=
  if temp_c < rule.temp_min then
    some ("low", "Temperature " ++ toString temp_c
      ++ "°C is below minimum " ++ toString rule.temp_min ++ "°C")
  else if temp_c > rule.temp_max then
    some ("high", "Temperature " ++ toString temp_c
      ++ "°C is above maximum " ++ toString rule.temp_max ++ "°C")
  else none

/-- The rule query of `_check_alerts`: rules of this device with
`is_active == True`. -/
def activeRulesFor (db : DB) (device : Device) : List AlertRule :=
  db.rules.filter (fun r => r.device_id == device.id && r.is_active)

/-- The `Alert(...)` constructor call inside `_check_alerts`:
fresh id, unacknowledged, `triggered_at` from the server clock. -/
def mkAlert (nid : Nat) (device : Device) (rule : AlertRule) (temp_c : ℚ)
    (ty msg : String) (now : Int) : Alert :=
  ⟨nid, device.id, rule.id, temp_c, ty, msg, false, now, none⟩

/-- The loop body of `_check_alerts` over the queried rules: each triggered
rule inserts an alert row and broadcasts an `alert` event to the device's
channel and to `"all"`. -/
def check_alerts_go (cm : ConnectionManager) (device : Device) (temp_c : ℚ)
    (now : Int) : List AlertRule → DB → DB × List TraceEv
  | [], db => (db, [])
  | rule :: rest, db =>
    match evalRule temp_c rule with
    | none => check_alerts_go cm device temp_c now rest db
    | some tymsg =>
      let alert := mkAlert db.nextAlertId device rule temp_c tymsg.1 tymsg.2 now
      let db2 : DB := { db with alerts := db.alerts ++ [alert],
                                nextAlertId := db.nextAlertId + 1 }
      let ev : WsMsg := .alert device.device_id tymsg.1 temp_c tymsg.2
      let tr : List TraceEv := TraceEv.persistAlert alert
        :: (deliveries device.device_id (cm.broadcast_to_device device.device_id ev)
            ++ deliveries "all" (cm.broadcast_to_device "all" ev))
      let rec_result := check_alerts_go cm device temp_c now rest db2
      (rec_result.1, tr ++ rec_result.2)

/-- `MQTTService._check_alerts`: query the device's active rules and run the
evaluation loop. -/
def check_alerts (db : DB) (cm : ConnectionManager) (device : Device)
    (temp_c : ℚ) (now : Int) : DB × List TraceEv :=
  check_alerts_go cm device temp_c now (activeRulesFor db device) db

/-! ## Persistence (MQTTService._persist_telemetry) -/

/-- `MQTTService._persist_telemetry`: resolve or auto-register the device,
insert the reading, broadcast the `telemetry` event to the device channel
and to `"all"`, then evaluate alert rules. -/
def persist_telemetry (db : DB) (cm : ConnectionManager) (device_id : String)
    (temp_c : ℚ) (recorded_at : Int) (now : Int) : DB × List TraceEv :=
  let found := db.devices.find? (fun d => d.device_id == device_id)
  let reg : DB × Device × List TraceEv :=
    match found with
    | some d => (db, d, [])
    | none =>
      let d : Device :=
        ⟨db.nextDeviceId, device_id, "Auto-registered: " ++ device_id, true⟩
      ({ db with devices := db.devices ++ [d],
                 nextDeviceId := db.nextDeviceId + 1 }, d,
       [TraceEv.persistDevice d])
  let db1 := reg.1
  let device := reg.2.1
  let reading : Telemetry :=
    ⟨db1.nextTelemetryId, device.id, temp_c, recorded_at⟩
  let db2 : DB := { db1 with telemetry := db1.telemetry ++ [reading],
                             nextTelemetryId := db1.nextTelemetryId + 1 }
  let tmsg : WsMsg := .telemetry device_id temp_c recorded_at
  let tr1 := deliveries device_id (cm.broadcast_to_device device_id tmsg)
  let tr2 := deliveries "all" (cm.broadcast_to_device "all" tmsg)
  let ca := check_alerts db2 cm device temp_c now
  (ca.1, reg.2.2 ++ [TraceEv.persistReading reading] ++ tr1 ++ tr2 ++ ca.2)

/-! ## Message handling (MQTTService._handle_message) -/

/-- `MQTTService._handle_message`: validate the three-segment topic
(`egg/<device-id>/telemetry`), decode the JSON payload, resolve the device
id (`payload.get("device_id", mqtt_device_id)`), coerce `temp_c` with
`float()`, resolve `recorded_at`, then persist and commit. Every caught
exception (bad topic, bad JSON, missing field, coercion or timestamp error)
returns with the database unchanged and an empty trace. -/
def handle_message (parseIso : String → Option Int) (now : Int) (db : DB)
    (cm : ConnectionManager) (msg : MqttMessage) : DB × List TraceEv :=
  let parts := pySplitSlash msg.topic
  if parts.length != 3 || parts[0]? != some "egg"
      || parts[2]? != some "telemetry" then (db, [])
  else
    match parts[1]? with
    | none => (db, [])
    | some mqtt_device_id =>
      match msg.payload with
      | .invalid => (db, [])
      | .obj p =>
        let device_id := p.device_id.getD mqtt_device_id
        match p.temp_c with
        | none => (db, [])
        | some v =>
          match pyFloat v with
          | none => (db, [])
          | some temp_c =>
            match parseTsField parseIso now p.ts with
            | none => (db, [])
            | some recorded_at =>
              let r := persist_telemetry db cm device_id temp_c recorded_at now
              (r.1, r.2 ++ [TraceEv.commit])

/-! ## Alert endpoints (src/services/api/app/routers/alerts.py) -/

/-- `acknowledge_alert` endpoint: 404 (`.error`) when the alert id is not
found; otherwise set `is_acknowledged = True` and overwrite
`acknowledged_at` with the current server time, returning the refreshed
row. -/
def acknowledge_alert (db : DB) (alert_id : Nat) (now : Int) :
    Except String (DB × Alert) :=
  match db.alerts.find? (fun a => a.id == alert_id) with
  | none => .error "Alert not found"
  | some a =>
    let a2 : Alert := { a with is_acknowledged := true,
                               acknowledged_at := some now }
    .ok ({ db with alerts :=
            db.alerts.map (fun x => if x.id == alert_id then a2 else x) }, a2)

/-- `clear_acknowledged_alerts` endpoint: select the acknowledged alerts,
delete each of them, and report how many were deleted. -/
def clear_acknowledged_alerts (db : DB) : DB × Nat :=
  let acked := db.alerts.filter (fun a => a.is_acknowledged)
  ({ db with alerts := db.alerts.filter (fun a => !a.is_acknowledged) },
   acked.length)

/-! ## Structural helpers for the alert-evaluation loop -/

/-- The alert rows the `_check_alerts` loop inserts, rule by rule, starting
from the given autoincrement id. -/
def triggeredAlerts (device : Device) (temp_c : ℚ) (now : Int) :
    List AlertRule → Nat → List Alert
  | [], _ => []
  | r :: rs, nid =>
    match evalRule temp_c r with
    | none => triggeredAlerts device temp_c now rs nid
    | some tymsg => mkAlert nid device r temp_c tymsg.1 tymsg.2 now
        :: triggeredAlerts device temp_c now rs (nid + 1)

theorem check_alerts_go_fst (cm : ConnectionManager) (device : Device)
    (temp_c : ℚ) (now : Int) :
    ∀ (rules : List AlertRule) (db : DB),
      (check_alerts_go cm device temp_c now rules db).1 =
      { db with
          alerts := db.alerts ++ triggeredAlerts device temp_c now rules db.nextAlertId,
          nextAlertId := db.nextAlertId
            + (triggeredAlerts device temp_c now rules db.nextAlertId).length } := by
  intro rules
  induction rules with
  | nil => intro db; simp [check_alerts_go, triggeredAlerts]
  | cons rule rest ih =>
    intro db
    cases h : evalRule temp_c rule with
    | none => simp [check_alerts_go, triggeredAlerts, h, ih]
    | some tymsg =>
      simp only [check_alerts_go, triggeredAlerts, h, ih]
      simp [DB.mk.injEq, List.append_assoc]
      omega

theorem check_alerts_fst (db : DB) (cm : ConnectionManager) (device : Device)
    (temp_c : ℚ) (now : Int) :
    (check_alerts db cm device temp_c now).1 =
    { db with
        alerts := db.alerts
          ++ triggeredAlerts device temp_c now (activeRulesFor db device) db.nextAlertId,
        nextAlertId := db.nextAlertId
          + (triggeredAlerts device temp_c now
              (activeRulesFor db device) db.nextAlertId).length } :=
  check_alerts_go_fst cm device temp_c now (activeRulesFor db device) db

theorem evalRule_low_iff (temp_c : ℚ) (r : AlertRule) :
    (evalRule temp_c r).map Prod.fst = some "low" ↔ temp_c < r.temp_min := by
  unfold evalRule
  split_ifs with h1 h2
  · exact iff_of_true (by simp) h1
  · exact iff_of_false (by simp) h1
  · exact iff_of_false (by simp) h1

theorem evalRule_high_iff (temp_c : ℚ) (r : AlertRule)
    (hwf : r.temp_min ≤ r.temp_max) :
    (evalRule temp_c r).map Prod.fst = some "high" ↔ r.temp_max < temp_c := by
  unfold evalRule
  split_ifs with h1 h2
  · exact iff_of_false (by simp)
      (not_lt.mpr (le_of_lt (lt_of_lt_of_le h1 hwf)))
  · exact iff_of_true (by simp) h2
  · exact iff_of_false (by simp) h2

theorem evalRule_none_iff (temp_c : ℚ) (r : AlertRule) :
    evalRule temp_c r = none ↔ (r.temp_min ≤ temp_c ∧ temp_c ≤ r.temp_max) := by
  unfold evalRule
  split_ifs with h1 h2
  · exact iff_of_false (by simp) (fun hc => absurd h1 (not_lt.mpr hc.1))
  · exact iff_of_false (by simp) (fun hc => absurd h2 (not_lt.mpr hc.2))
  · exact iff_of_true rfl ⟨not_lt.mp h1, not_lt.mp h2⟩

theorem triggeredAlerts_mem (device : Device) (temp_c : ℚ) (now : Int) :
    ∀ (rules : List AlertRule) (nid : Nat) (a : Alert),
      a ∈ triggeredAlerts device temp_c now rules nid →
      ∃ r ∈ rules, ∃ tymsg, evalRule temp_c r = some tymsg
        ∧ a.rule_id = r.id ∧ a.device_id = device.id
        ∧ a.temp_c = temp_c ∧ a.alert_type = tymsg.1 := by
  intro rules
  induction rules with
  | nil => intro nid a ha; simp [triggeredAlerts] at ha
  | cons rule rest ih =>
    intro nid a ha
    cases h : evalRule temp_c rule with
    | none =>
      simp only [triggeredAlerts, h] at ha
      obtain ⟨r, hr, rest_h⟩ := ih nid a ha
      exact ⟨r, List.mem_cons_of_mem rule hr, rest_h⟩
    | some tymsg =>
      simp only [triggeredAlerts, h, List.mem_cons] at ha
      cases ha with
      | inl he =>
        exact ⟨rule, List.mem_cons_self rule rest, tymsg, h, by simp [he, mkAlert]⟩
      | inr hm =>
        obtain ⟨r, hr, rest_h⟩ := ih (nid + 1) a hm
        exact ⟨r, List.mem_cons_of_mem rule hr, rest_h⟩

theorem triggeredAlerts_length (device : Device) (temp_c : ℚ) (now : Int) :
    ∀ (rules : List AlertRule) (nid : Nat),
      (triggeredAlerts device temp_c now rules nid).length
        = (rules.filter (fun r => (evalRule temp_c r).isSome)).length := by
  intro rules
  induction rules with
  | nil => intro nid; simp [triggeredAlerts]
  | cons rule rest ih =>
    intro nid
    cases h : evalRule temp_c rule with
    | none => simp [triggeredAlerts, h, List.filter_cons, ih nid]
    | some tymsg => simp [triggeredAlerts, h, List.filter_cons, ih (nid + 1)]

/-! ## C1 -/

/-- C1: for every device, every active rule bound to it, and every reading
temperature, `_check_alerts` appends exactly one alert per violated active
rule (`triggeredAlerts` over `activeRulesFor`); a rule is queried iff it
belongs to the device and is active; per rule the evaluation yields kind
`"low"` iff `t < temp_min`, kind `"high"` iff `t > temp_max` (given the
creation invariant `temp_min ≤ temp_max`), and nothing iff
`temp_min ≤ t ≤ temp_max` — so boundary-equal values never alert and at
most one kind triggers per rule; every inserted alert carries the rule's
id, the device's id and the evaluated kind. -/
theorem alert_evaluation_matches_thresholds (db : DB) (cm : ConnectionManager)
    (device : Device) (temp_c : ℚ) (now : Int) :
    ((check_alerts db cm device temp_c now).1.alerts
      = db.alerts
        ++ triggeredAlerts device temp_c now (activeRulesFor db device) db.nextAlertId)
    ∧ (∀ r : AlertRule, r ∈ activeRulesFor db device
        ↔ (r ∈ db.rules ∧ r.device_id = device.id ∧ r.is_active = true))
    ∧ (∀ r : AlertRule,
        ((evalRule temp_c r).map Prod.fst = some "low" ↔ temp_c < r.temp_min)
      ∧ (r.temp_min ≤ r.temp_max →
          ((evalRule temp_c r).map Prod.fst = some "high" ↔ r.temp_max < temp_c))
      ∧ (evalRule temp_c r = none ↔ (r.temp_min ≤ temp_c ∧ temp_c ≤ r.temp_max)))
    ∧ ((triggeredAlerts device temp_c now (activeRulesFor db device) db.nextAlertId).length
        = ((activeRulesFor db device).filter
            (fun r => (evalRule temp_c r).isSome)).length)
    ∧ (∀ a ∈ triggeredAlerts device temp_c now (activeRulesFor db device) db.nextAlertId,
        ∃ r ∈ activeRulesFor db device, ∃ tymsg, evalRule temp_c r = some tymsg
          ∧ a.rule_id = r.id ∧ a.device_id = device.id
          ∧ a.temp_c = temp_c ∧ a.alert_type = tymsg.1) := by
  refine ⟨by rw [check_alerts_fst], ?_, ?_, ?_, ?_⟩
  · intro r
    simp [activeRulesFor, List.mem_filter]
  · intro r
    exact ⟨evalRule_low_iff temp_c r,
      fun hwf => evalRule_high_iff temp_c r hwf, evalRule_none_iff temp_c r⟩
  · exact triggeredAlerts_length device temp_c now (activeRulesFor db device) db.nextAlertId
  · exact triggeredAlerts_mem device temp_c now (activeRulesFor db device) db.nextAlertId

/-! ## C10 -/

/-- C10: the bulk clear-acknowledged operation keeps exactly the alerts
whose acknowledged flag is false (so it deletes exactly the acknowledged
ones), reports the number of acknowledged alerts it deleted, and leaves
devices, readings and rules untouched. -/
theorem clear_acknowledged_deletes_exactly_acknowledged (db : DB) :
    (clear_acknowledged_alerts db).1.alerts
        = db.alerts.filter (fun a => !a.is_acknowledged)
    ∧ (clear_acknowledged_alerts db).2
        = (db.alerts.filter (fun a => a.is_acknowledged)).length
    ∧ (clear_acknowledged_alerts db).1.devices = db.devices
    ∧ (clear_acknowledged_alerts db).1.telemetry = db.telemetry
    ∧ (clear_acknowledged_alerts db).1.rules = db.rules := by
  simp [clear_acknowledged_alerts]

/-! ## C4 -/

/-- A sample already-acknowledged alert, acknowledged at time 50. -/
def ackedAlert : Alert := ⟨1, 1, 1, 34, "low", "too cold", true, 10, some 50⟩

/-- A database whose only alert is `ackedAlert`. -/
def dbAcked : DB := ⟨[], [], [], [ackedAlert], 1, 1, 2⟩

/-- C4 counterexample: alert 1 is already acknowledged with
`acknowledged_at = 50`, yet acknowledging it again at server time 100
succeeds and returns the alert with `acknowledged_at = 100 ≠ 50`: the
endpoint overwrites the already-set value instead of leaving it
unchanged. -/
theorem acknowledge_overwrites_timestamp_counterexample :
    ackedAlert.is_acknowledged = true
    ∧ ackedAlert.acknowledged_at = some 50
    ∧ (acknowledge_alert dbAcked 1 100).map (fun r => r.2.acknowledged_at)
        = .ok (some 100)
    ∧ some (100 : Int) ≠ some (50 : Int) :=
  ⟨rfl, rfl, rfl, by decide⟩

/-- C4 (amended): acknowledging an already-acknowledged Alert succeeds
(does not error) and keeps the acknowledged flag true, but it overwrites
`acknowledged_at` with the current server time of the new acknowledgment
rather than preserving the already-set value. -/
theorem acknowledge_already_acknowledged_succeeds (db : DB) (alert_id : Nat)
    (now : Int) (a : Alert)
    (hfind : db.alerts.find? (fun x => x.id == alert_id) = some a)
    (halready : a.is_acknowledged = true) :
    ∃ db2 a2, acknowledge_alert db alert_id now = .ok (db2, a2)
      ∧ a2.is_acknowledged = true
      ∧ a2.acknowledged_at = some now
      ∧ a2.id = a.id := by
  unfold acknowledge_alert
  rw [hfind]
  exact ⟨_, _, rfl, rfl, rfl, rfl⟩

/-- Witness for C4 (amended) at the concrete database `dbAcked`. -/
theorem acknowledge_already_acknowledged_succeeds_witness :
    ∃ db2 a2, acknowledge_alert dbAcked 1 100 = .ok (db2, a2)
      ∧ a2.is_acknowledged = true
      ∧ a2.acknowledged_at = some 100
      ∧ a2.id = ackedAlert.id :=
  acknowledge_already_acknowledged_succeeds dbAcked 1 100 ackedAlert rfl rfl

/-! ## Characterizing persistence -/

theorem find?_append_none {α : Type} (p : α → Bool) (l1 l2 : List α)
    (h : l1.find? p = none) : (l1 ++ l2).find? p = l2.find? p := by
  induction l1 with
  | nil => simp
  | cons x xs ih =>
    rw [List.find?_cons] at h
    cases hp : p x with
    | true => rw [hp] at h; exact absurd h (by simp)
    | false =>
      rw [hp] at h
      rw [List.cons_append, List.find?_cons, hp]
      exact ih h

theorem persist_telemetry_found (db : DB) (cm : ConnectionManager)
    (did : String) (q : ℚ) (rAt now : Int) (d : Device)
    (h : db.devices.find? (fun x => x.device_id == did) = some d) :
    (persist_telemetry db cm did q rAt now).1.devices = db.devices
    ∧ (persist_telemetry db cm did q rAt now).1.telemetry
        = db.telemetry ++ [⟨db.nextTelemetryId, d.id, q, rAt⟩]
    ∧ (persist_telemetry db cm did q rAt now).1.rules = db.rules := by
  simp [persist_telemetry, h, check_alerts_fst]

theorem persist_telemetry_new (db : DB) (cm : ConnectionManager)
    (did : String) (q : ℚ) (rAt now : Int)
    (h : db.devices.find? (fun x => x.device_id == did) = none) :
    (persist_telemetry db cm did q rAt now).1.devices
      = db.devices ++ [⟨db.nextDeviceId, did, "Auto-registered: " ++ did, true⟩]
    ∧ (persist_telemetry db cm did q rAt now).1.telemetry
        = db.telemetry ++ [⟨db.nextTelemetryId, db.nextDeviceId, q, rAt⟩]
    ∧ (persist_telemetry db cm did q rAt now).1.rules = db.rules := by
  simp [persist_telemetry, h, check_alerts_fst]

theorem persist_telemetry_reading (db : DB) (cm : ConnectionManager)
    (did : String) (q : ℚ) (rAt now : Int) :
    ∃ t : Telemetry,
      (persist_telemetry db cm did q rAt now).1.telemetry = db.telemetry ++ [t]
      ∧ t.temp_c = q ∧ t.recorded_at = rAt
      ∧ ∃ d ∈ (persist_telemetry db cm did q rAt now).1.devices,
          d.id = t.device_id ∧ d.device_id = did := by
  cases h : db.devices.find? (fun x => x.device_id == did) with
  | some d =>
    obtain ⟨hdev, htel, _⟩ := persist_telemetry_found db cm did q rAt now d h
    refine ⟨_, htel, rfl, rfl, d, ?_, rfl, ?_⟩
    · rw [hdev]; exact List.mem_of_find?_eq_some h
    · have := List.find?_some h
      simpa using this
  | none =>
    obtain ⟨hdev, htel, _⟩ := persist_telemetry_new db cm did q rAt now h
    exact ⟨_, htel, rfl, rfl,
      ⟨db.nextDeviceId, did, "Auto-registered: " ++ did, true⟩,
      by rw [hdev]; exact List.mem_append_right _ (by simp), rfl, rfl⟩

theorem handle_message_valid_eq (parseIso : String → Option Int) (now : Int)
    (db : DB) (cm : ConnectionManager) (msg : MqttMessage) (seg : String)
    (p : PayloadObj) (v : JVal) (q : ℚ) (rAt : Int)
    (htopic : pySplitSlash msg.topic = ["egg", seg, "telemetry"])
    (hpayload : msg.payload = .obj p)
    (htemp : p.temp_c = some v) (hq : pyFloat v = some q)
    (hts : parseTsField parseIso now p.ts = some rAt) :
    handle_message parseIso now db cm msg
      = ((persist_telemetry db cm (p.device_id.getD seg) q rAt now).1,
         (persist_telemetry db cm (p.device_id.getD seg) q rAt now).2
           ++ [TraceEv.commit]) := by
  unfold handle_message
  rw [htopic]
  simp [hpayload, htemp, hq, hts]

/-! ## Shared sample inputs -/

/-- A registered sample device. -/
def sampleDevice : Device := ⟨1, "dev1", "Pod 1", true⟩

/-- An active sample rule `[35, 39]` on `sampleDevice`. -/
def sampleRule : AlertRule := ⟨1, 1, 35, 39, true⟩

/-- An inactive sample rule on `sampleDevice`. -/
def sampleRuleInactive : AlertRule := ⟨2, 1, 36, 40, false⟩

/-- A database with one device and its two rules. -/
def sampleDB : DB := ⟨[sampleDevice], [], [sampleRule, sampleRuleInactive], [], 2, 1, 1⟩

/-- An empty database. -/
def emptyDB : DB := ⟨[], [], [], [], 1, 1, 1⟩

/-- A connection manager with a healthy and a broken viewer on `"all"` and a
healthy viewer on `"dev1"`. -/
def sampleCM : ConnectionManager :=
  ⟨[("all", [⟨7, false⟩, ⟨8, true⟩]), ("dev1", [⟨9, false⟩])]⟩

/-- A sample instantiation of the abstract ISO-8601 parser: it accepts one
fixed instant and rejects everything else. -/
def sampleIso : String → Option Int :=
  fun s => if s = "2024-01-01T00:00:00+00:00" then some 1704067200 else none

/-- A well-formed message: valid topic, numeric `temp_c`, parseable `ts`. -/
def msgGood : MqttMessage :=
  ⟨"egg/dev1/telemetry",
   .obj ⟨none, some (.jnum 37), some (.jstr "2024-01-01T00:00:00Z")⟩⟩

/-- A message with a truthy but malformed `ts` string. -/
def msgBadTs : MqttMessage :=
  ⟨"egg/dev1/telemetry", .obj ⟨none, some (.jnum 37), some (.jstr "not-a-date")⟩⟩

/-- A message without a `ts` field. -/
def msgNoTs : MqttMessage :=
  ⟨"egg/dev1/telemetry", .obj ⟨none, some (.jnum 37), none⟩⟩

/-- Witness for C1 at `sampleRule` and readings 34, 40 and 35: the boundary
value 35 does not alert, 34 alerts low, 40 alerts high. -/
theorem alert_evaluation_matches_thresholds_witness :
    ((check_alerts sampleDB sampleCM sampleDevice 34 99).1.alerts
      = sampleDB.alerts ++ triggeredAlerts sampleDevice 34 99
          (activeRulesFor sampleDB sampleDevice) sampleDB.nextAlertId)
    ∧ ((evalRule (34 : ℚ) sampleRule).map Prod.fst = some "low" ↔ (34 : ℚ) < 35)
    ∧ ((evalRule (40 : ℚ) sampleRule).map Prod.fst = some "high" ↔ (39 : ℚ) < 40)
    ∧ (evalRule (35 : ℚ) sampleRule = none ↔ ((35 : ℚ) ≤ 35 ∧ (35 : ℚ) ≤ 39)) := by
  have h34 := alert_evaluation_matches_thresholds sampleDB sampleCM sampleDevice 34 99
  have h40 := alert_evaluation_matches_thresholds sampleDB sampleCM sampleDevice 40 99
  have h35 := alert_evaluation_matches_thresholds sampleDB sampleCM sampleDevice 35 99
  exact ⟨h34.1, (h34.2.2.1 sampleRule).1,
    (h40.2.2.1 sampleRule).2.1 (by decide),
    (h35.2.2.1 sampleRule).2.2⟩

/-! ## C3 -/

/-- C3: for a valid inbound message (three-segment `egg/<id>/telemetry`
topic, JSON object payload with numeric `temp_c`, and a `ts` field that
resolves — producer-supplied or the server-time fallback), processing
appends exactly one Reading, whose `temp_c` is the payload's value and
whose `recorded_at` is the resolved timestamp (`now` whenever `ts` is
absent), attributed to the device whose external id is the payload's
`device_id` when present and otherwise the topic's second segment. -/
theorem valid_message_creates_one_reading (parseIso : String → Option Int)
    (now : Int) (db : DB) (cm : ConnectionManager) (msg : MqttMessage)
    (seg : String) (p : PayloadObj) (q : ℚ) (rAt : Int)
    (htopic : pySplitSlash msg.topic = ["egg", seg, "telemetry"])
    (hpayload : msg.payload = .obj p)
    (htemp : p.temp_c = some (.jnum q))
    (hts : parseTsField parseIso now p.ts = some rAt) :
    (∃ t : Telemetry,
      (handle_message parseIso now db cm msg).1.telemetry = db.telemetry ++ [t]
      ∧ t.temp_c = q ∧ t.recorded_at = rAt
      ∧ ∃ d ∈ (handle_message parseIso now db cm msg).1.devices,
          d.id = t.device_id ∧ d.device_id = p.device_id.getD seg)
    ∧ (p.ts = none → rAt = now) := by
  rw [handle_message_valid_eq parseIso now db cm msg seg p (.jnum q) q rAt
    htopic hpayload htemp rfl hts]
  constructor
  · exact persist_telemetry_reading db cm (p.device_id.getD seg) q rAt now
  · intro hnone
    rw [hnone] at hts
    simpa [parseTsField] using hts.symm

/-- Witness for C3 at `msgGood` over the empty database: one Reading with
`temp_c = 37` recorded at the parsed producer timestamp. -/
theorem valid_message_creates_one_reading_witness :
    (∃ t : Telemetry,
      (handle_message sampleIso 99 emptyDB sampleCM msgGood).1.telemetry
          = emptyDB.telemetry ++ [t]
      ∧ t.temp_c = 37 ∧ t.recorded_at = 1704067200
      ∧ ∃ d ∈ (handle_message sampleIso 99 emptyDB sampleCM msgGood).1.devices,
          d.id = t.device_id ∧ d.device_id = (none : Option String).getD "dev1")
    ∧ ((some (JVal.jstr "2024-01-01T00:00:00Z") : Option JVal) = none →
        (1704067200 : Int) = 99) := by
  have h := valid_message_creates_one_reading sampleIso 99 emptyDB sampleCM
    msgGood "dev1" ⟨none, some (.jnum 37), some (.jstr "2024-01-01T00:00:00Z")⟩
    37 1704067200 rfl rfl rfl rfl
  exact ⟨h.1, h.2⟩

/-! ## C5 -/

/-- C5 counterexample: `msgBadTs` has a numeric `temp_c` and a truthy but
malformed `ts` string (the ISO parser rejects it), yet no Reading is
persisted with the server-time fallback: the raised `ValueError` is caught
and the whole message is dropped, leaving the database unchanged. -/
theorem malformed_ts_dropped_counterexample :
    sampleIso (replaceZ "not-a-date") = none
    ∧ handle_message sampleIso 99 emptyDB sampleCM msgBadTs = (emptyDB, [])
    ∧ (handle_message sampleIso 99 emptyDB sampleCM msgBadTs).1.telemetry = [] :=
  ⟨rfl, rfl, rfl⟩

/-- C5 (amended): the server-time fallback applies only when `ts` is absent
(or falsy): then the message is accepted and the Reading's `recorded_at` is
the current server time. A message whose `ts` is a truthy malformed
(non-ISO-8601) string is dropped without persisting anything: the fallback
does not apply to the malformed case. -/
theorem ts_fallback_only_when_absent (parseIso : String → Option Int)
    (now : Int) (db : DB) (cm : ConnectionManager) (msg : MqttMessage)
    (seg : String) (p : PayloadObj) (q : ℚ)
    (htopic : pySplitSlash msg.topic = ["egg", seg, "telemetry"])
    (hpayload : msg.payload = .obj p)
    (htemp : p.temp_c = some (.jnum q)) :
    (p.ts = none →
      ∃ t : Telemetry,
        (handle_message parseIso now db cm msg).1.telemetry
            = db.telemetry ++ [t]
        ∧ t.temp_c = q ∧ t.recorded_at = now)
    ∧ (∀ s : String, p.ts = some (.jstr s) → s ≠ "" →
        parseIso (replaceZ s) = none →
        handle_message parseIso now db cm msg = (db, [])) := by
  constructor
  · intro hnone
    have heq := handle_message_valid_eq parseIso now db cm msg seg p (.jnum q)
      q now htopic hpayload htemp rfl (by rw [hnone]; rfl)
    rw [heq]
    obtain ⟨t, ht, h1, h2, _⟩ :=
      persist_telemetry_reading db cm (p.device_id.getD seg) q now now
    exact ⟨t, ht, h1, h2⟩
  · intro s hts hne hparse
    unfold handle_message
    rw [htopic]
    simp [hpayload, htemp, hts, parseTsField, truthy, hne, hparse]
    split <;> rfl

/-- Witness for C5 (amended): `msgNoTs` is persisted with
`recorded_at = 99` (the server time), while `msgBadTs` is dropped. -/
theorem ts_fallback_only_when_absent_witness :
    (∃ t : Telemetry,
      (handle_message sampleIso 99 emptyDB sampleCM msgNoTs).1.telemetry
          = emptyDB.telemetry ++ [t]
      ∧ t.temp_c = 37 ∧ t.recorded_at = 99)
    ∧ handle_message sampleIso 99 emptyDB sampleCM msgBadTs = (emptyDB, []) := by
  have h1 := ts_fallback_only_when_absent sampleIso 99 emptyDB sampleCM msgNoTs
    "dev1" ⟨none, some (.jnum 37), none⟩ 37 rfl rfl rfl
  have h2 := ts_fallback_only_when_absent sampleIso 99 emptyDB sampleCM msgBadTs
    "dev1" ⟨none, some (.jnum 37), some (.jstr "not-a-date")⟩ 37 rfl rfl rfl
  exact ⟨h1.1 rfl, h2.2 "not-a-date" rfl (by decide) rfl⟩

/-! ## C6 -/

/-- C6: a malformed inbound message — a topic that does not split into
`egg/<id>/telemetry`, an invalid-JSON payload, or a payload with missing or
non-numeric `temp_c` — makes the handler return with the database unchanged
and no persistence or broadcast effects; and because the state is
unchanged, a subsequent message is processed exactly as it would have been
without the malformed one. -/
theorem malformed_message_dropped (parseIso : String → Option Int) (now : Int)
    (db : DB) (cm : ConnectionManager) :
    (∀ msg : MqttMessage,
        ((pySplitSlash msg.topic).length ≠ 3
          ∨ (pySplitSlash msg.topic)[0]? ≠ some "egg"
          ∨ (pySplitSlash msg.topic)[2]? ≠ some "telemetry") →
        handle_message parseIso now db cm msg = (db, []))
    ∧ (∀ msg : MqttMessage, msg.payload = .invalid →
        handle_message parseIso now db cm msg = (db, []))
    ∧ (∀ (msg : MqttMessage) (p : PayloadObj), msg.payload = .obj p →
        p.temp_c = none →
        handle_message parseIso now db cm msg = (db, []))
    ∧ (∀ (msg : MqttMessage) (p : PayloadObj) (v : JVal), msg.payload = .obj p →
        p.temp_c = some v → pyFloat v = none →
        handle_message parseIso now db cm msg = (db, []))
    ∧ (∀ bad good : MqttMessage,
        handle_message parseIso now db cm bad = (db, []) →
        handle_message parseIso now
          (handle_message parseIso now db cm bad).1 cm good
          = handle_message parseIso now db cm good) := by
  refine ⟨?_, ?_, ?_, ?_, ?_⟩
  · intro msg h
    have hc : ((pySplitSlash msg.topic).length != 3
        || (pySplitSlash msg.topic)[0]? != some "egg"
        || (pySplitSlash msg.topic)[2]? != some "telemetry") = true := by
      rcases h with h | h | h <;> simp [h]
    unfold handle_message
    rw [if_pos hc]
  · intro msg h
    simp only [handle_message, h]
    split
    · rfl
    · split <;> rfl
  · intro msg p hobj htemp
    simp only [handle_message, hobj, htemp]
    split
    · rfl
    · split <;> rfl
  · intro msg p v hobj htemp hv
    simp only [handle_message, hobj, htemp, hv]
    split
    · rfl
    · split <;> rfl
  · intro bad good hbad
    rw [hbad]

/-- A two-segment topic, as in the spec's malformed-topic example. -/
def msgBadTopic : MqttMessage :=
  ⟨"egg/telemetry", .obj ⟨none, some (.jnum 37), none⟩⟩

/-- The spec's invalid-payload example `{"temp_c": "not-a-number"}`. -/
def msgBadTemp : MqttMessage :=
  ⟨"egg/dev1/telemetry", .obj ⟨none, some (.jstr "not-a-number"), none⟩⟩

/-- Witness for C6: the two-segment topic and the non-numeric `temp_c`
are dropped with the database unchanged, and `msgNoTs` processed after a
dropped message behaves as if processed directly. -/
theorem malformed_message_dropped_witness :
    handle_message sampleIso 99 emptyDB sampleCM msgBadTopic = (emptyDB, [])
    ∧ handle_message sampleIso 99 emptyDB sampleCM msgBadTemp = (emptyDB, [])
    ∧ handle_message sampleIso 99
        (handle_message sampleIso 99 emptyDB sampleCM msgBadTopic).1 sampleCM
        msgNoTs
        = handle_message sampleIso 99 emptyDB sampleCM msgNoTs := by
  have h := malformed_message_dropped sampleIso 99 emptyDB sampleCM
  exact ⟨h.1 msgBadTopic (Or.inl (by decide)),
    h.2.2.2.1 msgBadTemp ⟨none, some (.jstr "not-a-number"), none⟩
      (.jstr "not-a-number") rfl rfl (by decide),
    h.2.2.2.2 msgBadTopic msgNoTs (h.1 msgBadTopic (Or.inl (by decide)))⟩

/-! ## C7 -/

/-- C7: telemetry for an unknown external device id creates exactly one new
Device, named descriptively from the raw id; a second message with the same
id creates no duplicate Device and attaches its Reading to the device
created by the first message. -/
theorem auto_registration_no_duplicate (db : DB) (cm : ConnectionManager)
    (did : String) (q1 q2 : ℚ) (rAt1 rAt2 now : Int)
    (hnew : db.devices.find? (fun d => d.device_id == did) = none) :
    (persist_telemetry db cm did q1 rAt1 now).1.devices
        = db.devices ++ [⟨db.nextDeviceId, did, "Auto-registered: " ++ did, true⟩]
    ∧ (persist_telemetry (persist_telemetry db cm did q1 rAt1 now).1 cm did q2
          rAt2 now).1.devices
        = (persist_telemetry db cm did q1 rAt1 now).1.devices
    ∧ (∃ t : Telemetry,
        (persist_telemetry (persist_telemetry db cm did q1 rAt1 now).1 cm did q2
            rAt2 now).1.telemetry
          = (persist_telemetry db cm did q1 rAt1 now).1.telemetry ++ [t]
        ∧ t.device_id = db.nextDeviceId ∧ t.temp_c = q2 ∧ t.recorded_at = rAt2) := by
  obtain ⟨hdev1, htel1, _⟩ := persist_telemetry_new db cm did q1 rAt1 now hnew
  have hfind2 : (persist_telemetry db cm did q1 rAt1 now).1.devices.find?
      (fun d => d.device_id == did)
      = some ⟨db.nextDeviceId, did, "Auto-registered: " ++ did, true⟩ := by
    rw [hdev1, find?_append_none _ _ _ hnew]
    simp [List.find?]
  obtain ⟨hdev2, htel2, _⟩ :=
    persist_telemetry_found _ cm did q2 rAt2 now _ hfind2
  exact ⟨hdev1, hdev2, _, htel2, rfl, rfl, rfl⟩

/-- Witness for C7 over the empty database with id `"dev1"`. -/
theorem auto_registration_no_duplicate_witness :
    (persist_telemetry emptyDB sampleCM "dev1" 37 5 99).1.devices
        = emptyDB.devices
          ++ [⟨emptyDB.nextDeviceId, "dev1", "Auto-registered: " ++ "dev1", true⟩]
    ∧ (persist_telemetry (persist_telemetry emptyDB sampleCM "dev1" 37 5 99).1
          sampleCM "dev1" 38 6 99).1.devices
        = (persist_telemetry emptyDB sampleCM "dev1" 37 5 99).1.devices
    ∧ (∃ t : Telemetry,
        (persist_telemetry (persist_telemetry emptyDB sampleCM "dev1" 37 5 99).1
            sampleCM "dev1" 38 6 99).1.telemetry
          = (persist_telemetry emptyDB sampleCM "dev1" 37 5 99).1.telemetry ++ [t]
        ∧ t.device_id = emptyDB.nextDeviceId ∧ t.temp_c = 38
        ∧ t.recorded_at = 6) :=
  auto_registration_no_duplicate emptyDB sampleCM "dev1" 37 38 5 6 99 rfl

/-! ## C8 -/

theorem broadcast_foldl_eq (msg : WsMsg) (l : List Conn) :
    ∀ acc : List (Nat × WsMsg),
      l.foldl (fun acc c =>
        match ConnectionManager.sendJson c msg with
        | .ok d => acc ++ [d]
        | .error _ => acc) acc
      = acc ++ (l.filter (fun c => !c.broken)).map (fun c => (c.id, msg)) := by
  induction l with
  | nil => intro acc; simp
  | cons c rest ih =>
    intro acc
    rw [List.foldl_cons, ih]
    cases hb : c.broken with
    | true => simp [ConnectionManager.sendJson, hb, List.filter_cons]
    | false => simp [ConnectionManager.sendJson, hb, List.filter_cons]

theorem broadcast_to_device_eq (cm : ConnectionManager) (k : String)
    (msg : WsMsg) :
    cm.broadcast_to_device k msg
      = (((lookupKey cm.active_connections k).getD []).filter
          (fun c => !c.broken)).map (fun c => (c.id, msg)) := by
  unfold ConnectionManager.broadcast_to_device
  cases h : lookupKey cm.active_connections k with
  | none => simp
  | some l => simpa using broadcast_foldl_eq msg l []

theorem broadcast_to_device_mem (cm : ConnectionManager) (k : String)
    (msg : WsMsg) (c : Conn) (l : List Conn)
    (hl : lookupKey cm.active_connections k = some l) (hc : c ∈ l)
    (hok : c.broken = false) : (c.id, msg) ∈ cm.broadcast_to_device k msg := by
  rw [broadcast_to_device_eq, hl]
  exact List.mem_map_of_mem _ (List.mem_filter.mpr ⟨hc, by simp [hok]⟩)

/-- C8: `broadcast_to_device` delivers the event to exactly the currently
registered, non-broken connections of the channel key, in registration
order — a send failure on one connection is swallowed and removes only that
connection's delivery, never the others', and the call itself always
returns (the claim's "no error raised to the caller"); consequently every
healthy connection registered under the key receives the event, and the
pipeline's telemetry event reaches both the device's own channel key and
the reserved `"all"` key. -/
theorem broadcast_best_effort (cm : ConnectionManager) (k : String)
    (msg : WsMsg) (db : DB) (did : String) (q : ℚ) (rAt now : Int) :
    (cm.broadcast_to_device k msg
      = (((lookupKey cm.active_connections k).getD []).filter
          (fun c => !c.broken)).map (fun c => (c.id, msg)))
    ∧ (∀ (c : Conn) (l : List Conn),
        lookupKey cm.active_connections k = some l → c ∈ l →
        c.broken = false → (c.id, msg) ∈ cm.broadcast_to_device k msg)
    ∧ (∀ (c : Conn) (l : List Conn),
        lookupKey cm.active_connections did = some l → c ∈ l →
        c.broken = false →
        TraceEv.deliver c.id did (.telemetry did q rAt)
          ∈ (persist_telemetry db cm did q rAt now).2)
    ∧ (∀ (c : Conn) (l : List Conn),
        lookupKey cm.active_connections "all" = some l → c ∈ l →
        c.broken = false →
        TraceEv.deliver c.id "all" (.telemetry did q rAt)
          ∈ (persist_telemetry db cm did q rAt now).2) := by
  refine ⟨broadcast_to_device_eq cm k msg, ?_, ?_, ?_⟩
  · intro c l hl hc hok
    exact broadcast_to_device_mem cm k msg c l hl hc hok
  · intro c l hl hc hok
    have hdel : TraceEv.deliver c.id did (.telemetry did q rAt)
        ∈ deliveries did (cm.broadcast_to_device did (.telemetry did q rAt)) :=
      List.mem_map_of_mem _
        (broadcast_to_device_mem cm did (.telemetry did q rAt) c l hl hc hok)
    cases hfind : db.devices.find? (fun d => d.device_id == did) <;>
      · simp only [persist_telemetry, hfind, List.mem_append]
        tauto
  · intro c l hl hc hok
    have hdel : TraceEv.deliver c.id "all" (.telemetry did q rAt)
        ∈ deliveries "all" (cm.broadcast_to_device "all" (.telemetry did q rAt)) :=
      List.mem_map_of_mem _
        (broadcast_to_device_mem cm "all" (.telemetry did q rAt) c l hl hc hok)
    cases hfind : db.devices.find? (fun d => d.device_id == did) <;>
      · simp only [persist_telemetry, hfind, List.mem_append]
        tauto

/-- Witness for C8 on `sampleCM`: under `"all"`, connection 7 is healthy
and connection 8 is broken; 7 still receives the event, and the telemetry
trace of `persist_telemetry` reaches both `"dev1"` (connection 9) and
`"all"` (connection 7). -/
theorem broadcast_best_effort_witness :
    ((7 : Nat), WsMsg.telemetry "dev1" 37 5)
        ∈ sampleCM.broadcast_to_device "all" (.telemetry "dev1" 37 5)
    ∧ TraceEv.deliver 9 "dev1" (.telemetry "dev1" 37 5)
        ∈ (persist_telemetry emptyDB sampleCM "dev1" 37 5 99).2
    ∧ TraceEv.deliver 7 "all" (.telemetry "dev1" 37 5)
        ∈ (persist_telemetry emptyDB sampleCM "dev1" 37 5 99).2 := by
  have h := broadcast_best_effort sampleCM "all" (.telemetry "dev1" 37 5)
    emptyDB "dev1" 37 5 99
  exact ⟨h.2.1 ⟨7, false⟩ [⟨7, false⟩, ⟨8, true⟩] rfl (by decide) rfl,
    h.2.2.1 ⟨9, false⟩ [⟨9, false⟩] rfl (by decide) rfl,
    h.2.2.2 ⟨7, false⟩ [⟨7, false⟩, ⟨8, true⟩] rfl (by decide) rfl⟩

/-! ## C9 -/

/-- The registry invariant: every key present maps to a non-empty
connection list. -/
def RegistryInv (cm : ConnectionManager) : Prop :=
  ∀ e ∈ cm.active_connections, e.2 ≠ []

theorem find?_setKey_self (m : Registry) (k : String) (v : List Conn)
    (h : (m.find? (fun e => e.1 == k)).isSome = true) :
    (setKey m k v).find? (fun e => e.1 == k) = some (k, v) := by
  induction m with
  | nil => simp at h
  | cons e rest ih =>
    rw [List.find?_cons] at h
    have hset : setKey (e :: rest) k v
        = (if e.1 == k then (k, v) else e) :: setKey rest k v := rfl
    rw [hset]
    cases hk : (e.1 == k) with
    | true =>
      rw [if_pos rfl]
      exact List.find?_cons_of_pos _ (by simp)
    | false =>
      rw [if_neg (by simp)]
      rw [List.find?_cons_of_neg _ (by simp [hk])]
      rw [hk] at h
      exact ih h

theorem find?_delKey_self (m : Registry) (k : String) :
    (delKey m k).find? (fun e => e.1 == k) = none := by
  induction m with
  | nil => rfl
  | cons e rest ih =>
    cases hk : (e.1 == k) with
    | true =>
      have hd : delKey (e :: rest) k = delKey rest k := by
        simp [delKey, List.filter_cons, hk]
      rw [hd]; exact ih
    | false =>
      have hd : delKey (e :: rest) k = e :: delKey rest k := by
        simp [delKey, List.filter_cons, hk]
      rw [hd, List.find?_cons_of_neg _ (by simp [hk])]
      exact ih

theorem lookupKey_setKey_self (m : Registry) (k : String) (v l : List Conn)
    (h : lookupKey m k = some l) :
    lookupKey (setKey m k v) k = some v := by
  unfold lookupKey at h ⊢
  rw [find?_setKey_self m k v]
  · rfl
  · cases hf : m.find? (fun e => e.1 == k) with
    | none => rw [hf] at h; exact absurd h (by simp)
    | some x => simp [hf]

theorem lookupKey_delKey_self (m : Registry) (k : String) :
    lookupKey (delKey m k) k = none := by
  unfold lookupKey
  rw [find?_delKey_self]
  rfl

/-- C9: unregistering removes the connection from the key's list (first
occurrence, Python `list.remove`) and removes the key entirely when the
list becomes empty; the invariant "every registered key maps to a non-empty
connection list" is preserved by every `connect` and by every successful
`disconnect`. -/
theorem registry_nonempty_invariant (cm : ConnectionManager) (ws : Conn)
    (k : String) :
    (∀ (l : List Conn), lookupKey cm.active_connections k = some l → ws ∈ l →
      ∀ cm2 : ConnectionManager, cm.disconnect ws k = .ok cm2 →
        lookupKey cm2.active_connections k
          = (if l.erase ws = [] then none else some (l.erase ws)))
    ∧ (RegistryInv cm → RegistryInv (cm.connect ws k))
    ∧ (RegistryInv cm →
        ∀ cm2 : ConnectionManager, cm.disconnect ws k = .ok cm2 →
          RegistryInv cm2) := by
  refine ⟨?_, ?_, ?_⟩
  · intro l hl hmem cm2 hok
    unfold ConnectionManager.disconnect at hok
    simp only [hl] at hok
    rw [if_pos hmem] at hok
    by_cases hemp : l.erase ws = []
    · rw [if_pos (by simp [hemp])] at hok
      cases hok
      rw [if_pos hemp]
      exact lookupKey_delKey_self _ k
    · rw [if_neg (by simpa [List.isEmpty_iff] using hemp)] at hok
      cases hok
      rw [if_neg hemp]
      exact lookupKey_setKey_self _ k _ l hl
  · intro hinv
    unfold ConnectionManager.connect
    cases hl : lookupKey cm.active_connections k with
    | none =>
      intro e he
      rcases List.mem_append.mp he with hm | hm
      · exact hinv e hm
      · simp only [List.mem_singleton] at hm
        subst hm; simp
    | some l =>
      intro e he
      simp only [setKey, List.mem_map] at he
      obtain ⟨e0, he0, heq⟩ := he
      by_cases hk : (e0.1 == k) = true
      · rw [if_pos hk] at heq; subst heq; simp
      · rw [if_neg hk] at heq; subst heq; exact hinv e0 he0
  · intro hinv cm2 hok
    unfold ConnectionManager.disconnect at hok
    cases hl : lookupKey cm.active_connections k with
    | none => simp only [hl] at hok; cases hok; exact hinv
    | some l =>
      simp only [hl] at hok
      by_cases hmem : ws ∈ l
      · rw [if_pos hmem] at hok
        by_cases hemp : (l.erase ws).isEmpty = true
        · rw [if_pos hemp] at hok
          cases hok
          intro e he
          exact hinv e (List.mem_of_mem_filter he)
        · rw [if_neg hemp] at hok
          cases hok
          intro e he
          simp only [setKey, List.mem_map] at he
          obtain ⟨e0, he0, heq⟩ := he
          by_cases hk : (e0.1 == k) = true
          · rw [if_pos hk] at heq; subst heq
            simpa [List.isEmpty_iff] using hemp
          · rw [if_neg hk] at heq; subst heq
            exact hinv e0 he0
      · rw [if_neg hmem] at hok
        cases hok

/-- Witness for C9: disconnecting connection 9 from `"dev1"` on `sampleCM`
empties that key's list, so the key is removed; the invariant holds after
a fresh `connect` as well. -/
theorem registry_nonempty_invariant_witness :
    lookupKey (delKey sampleCM.active_connections "dev1") "dev1"
      = (if ([⟨9, false⟩] : List Conn).erase ⟨9, false⟩ = [] then none
          else some (([⟨9, false⟩] : List Conn).erase ⟨9, false⟩))
    ∧ RegistryInv (sampleCM.connect ⟨10, false⟩ "dev2") := by
  have h := registry_nonempty_invariant sampleCM ⟨9, false⟩ "dev1"
  have h2 := registry_nonempty_invariant sampleCM ⟨10, false⟩ "dev2"
  refine ⟨h.1 [⟨9, false⟩] rfl (by decide)
      ⟨delKey sampleCM.active_connections "dev1"⟩ rfl,
    h2.2.1 ?_⟩
  intro e he
  simp only [sampleCM, List.mem_cons, List.not_mem_nil, or_false] at he
  rcases he with rfl | rfl <;> simp

/-! ## C2 -/

/-- The justification a trace event needs with respect to the events seen
before it: a broadcast delivery of a `telemetry` event requires an earlier
flushed Reading with the same temperature and timestamp that is present in
the final database; a delivery of an `alert` event requires an earlier
flushed Alert with the same kind, temperature and message present in the
final database; every other event needs nothing. -/
def justCond (final : DB) (seen : List TraceEv) : TraceEv → Prop
  | .deliver _ _ (.telemetry _ q rAt) =>
      ∃ t : Telemetry, TraceEv.persistReading t ∈ seen
        ∧ t.temp_c = q ∧ t.recorded_at = rAt ∧ t ∈ final.telemetry
  | .deliver _ _ (.alert _ ty q m) =>
      ∃ a : Alert, TraceEv.persistAlert a ∈ seen
        ∧ a.alert_type = ty ∧ a.temp_c = q ∧ a.message = m ∧ a ∈ final.alerts
  | _ => True

/-- Every delivery in the trace is justified by the events strictly before
it (`seen` accumulates the prefix). -/
def delivers_justified (final : DB) : List TraceEv → List TraceEv → Prop
  | _, [] => True
  | seen, e :: rest =>
      justCond final seen e ∧ delivers_justified final (seen ++ [e]) rest

theorem justCond_mono (final : DB) (seen seen2 : List TraceEv)
    (hsub : ∀ x ∈ seen, x ∈ seen2) (e : TraceEv)
    (h : justCond final seen e) : justCond final seen2 e := by
  cases e with
  | deliver cid ch m =>
    cases m with
    | telemetry dId q rAt =>
      obtain ⟨t, ht, h1, h2, h3⟩ := h
      exact ⟨t, hsub _ ht, h1, h2, h3⟩
    | alert dId ty q ms =>
      obtain ⟨a, ha, h1, h2, h3, h4⟩ := h
      exact ⟨a, hsub _ ha, h1, h2, h3, h4⟩
  | persistDevice d => trivial
  | persistReading t => trivial
  | persistAlert a => trivial
  | commit => trivial

theorem delivers_justified_mono (final : DB) :
    ∀ (tr seen seen2 : List TraceEv), (∀ x ∈ seen, x ∈ seen2) →
      delivers_justified final seen tr → delivers_justified final seen2 tr := by
  intro tr
  induction tr with
  | nil => intro seen seen2 _ _; trivial
  | cons e rest ih =>
    intro seen seen2 hsub h
    refine ⟨justCond_mono final seen seen2 hsub e h.1, ?_⟩
    refine ih (seen ++ [e]) (seen2 ++ [e]) ?_ h.2
    intro x hx
    rcases List.mem_append.mp hx with hx | hx
    · exact List.mem_append_left _ (hsub x hx)
    · exact List.mem_append_right _ hx

theorem delivers_justified_append (final : DB) :
    ∀ (tr1 tr2 seen : List TraceEv),
      delivers_justified final seen (tr1 ++ tr2)
      ↔ (delivers_justified final seen tr1
          ∧ delivers_justified final (seen ++ tr1) tr2) := by
  intro tr1
  induction tr1 with
  | nil => intro tr2 seen; simp [delivers_justified]
  | cons e rest ih =>
    intro tr2 seen
    rw [List.cons_append]
    show (justCond final seen e
        ∧ delivers_justified final (seen ++ [e]) (rest ++ tr2)) ↔ _
    rw [ih tr2 (seen ++ [e])]
    constructor
    · rintro ⟨h1, h2, h3⟩
      exact ⟨⟨h1, h2⟩, by simpa [List.append_assoc] using h3⟩
    · rintro ⟨⟨h1, h2⟩, h3⟩
      exact ⟨h1, h2, by simpa [List.append_assoc] using h3⟩

theorem delivers_justified_of_forall (final : DB) :
    ∀ (tr seen : List TraceEv), (∀ e ∈ tr, justCond final seen e) →
      delivers_justified final seen tr := by
  intro tr
  induction tr with
  | nil => intro seen _; trivial
  | cons e rest ih =>
    intro seen h
    refine ⟨h e (List.mem_cons_self e rest), ?_⟩
    refine delivers_justified_mono final rest seen (seen ++ [e])
      (fun x hx => List.mem_append_left _ hx) (ih seen ?_)
    exact fun x hx => h x (List.mem_cons_of_mem e hx)

theorem mem_deliveries (ch : String) (ds : List (Nat × WsMsg)) (e : TraceEv)
    (he : e ∈ deliveries ch ds) :
    ∃ d ∈ ds, e = TraceEv.deliver d.1 ch d.2 := by
  unfold deliveries at he
  obtain ⟨d, hd, he⟩ := List.mem_map.mp he
  exact ⟨d, hd, he.symm⟩

theorem broadcast_to_device_snd (cm : ConnectionManager) (k : String)
    (msg : WsMsg) (d : Nat × WsMsg) (hd : d ∈ cm.broadcast_to_device k msg) :
    d.2 = msg := by
  rw [broadcast_to_device_eq] at hd
  obtain ⟨c, _, hc⟩ := List.mem_map.mp hd
  rw [← hc]

theorem check_alerts_telemetry (db : DB) (cm : ConnectionManager)
    (device : Device) (temp_c : ℚ) (now : Int) :
    (check_alerts db cm device temp_c now).1.telemetry = db.telemetry := by
  rw [check_alerts_fst]

theorem check_alerts_go_justified (cm : ConnectionManager) (device : Device)
    (temp_c : ℚ) (now : Int) (final : DB) :
    ∀ (rules : List AlertRule) (db : DB) (seen : List TraceEv),
      (∀ x ∈ (check_alerts_go cm device temp_c now rules db).1.alerts,
        x ∈ final.alerts) →
      delivers_justified final seen
        (check_alerts_go cm device temp_c now rules db).2 := by
  intro rules
  induction rules with
  | nil => intro db seen _; trivial
  | cons rule rest ih =>
    intro db seen hsub
    cases h : evalRule temp_c rule with
    | none =>
      simp only [check_alerts_go, h] at hsub ⊢
      exact ih db seen hsub
    | some tymsg =>
      simp only [check_alerts_go, h] at hsub ⊢
      have halert_mem :
          mkAlert db.nextAlertId device rule temp_c tymsg.1 tymsg.2 now
            ∈ final.alerts := by
        refine hsub _ ?_
        rw [check_alerts_go_fst]
        exact List.mem_append_left _ (List.mem_append_right _ (by simp))
      have hdeliv : ∀ (ch : String) (seen2 : List TraceEv),
          TraceEv.persistAlert
            (mkAlert db.nextAlertId device rule temp_c tymsg.1 tymsg.2 now)
            ∈ seen2 →
          ∀ e ∈ deliveries ch (cm.broadcast_to_device ch
            (.alert device.device_id tymsg.1 temp_c tymsg.2)),
            justCond final seen2 e := by
        intro ch seen2 hpa e he
        obtain ⟨d, hd, rfl⟩ := mem_deliveries ch _ e he
        rw [broadcast_to_device_snd cm ch _ d hd]
        exact ⟨_, hpa, rfl, rfl, rfl, halert_mem⟩
      rw [List.cons_append]
      refine ⟨trivial, ?_⟩
      rw [delivers_justified_append, delivers_justified_append]
      refine ⟨⟨delivers_justified_of_forall final _ _
          (hdeliv device.device_id _ (by simp)),
        delivers_justified_of_forall final _ _
          (hdeliv "all" _ (by simp))⟩, ?_⟩
      exact ih _ _ hsub

theorem check_alerts_justified (db : DB) (cm : ConnectionManager)
    (device : Device) (temp_c : ℚ) (now : Int) (seen : List TraceEv) :
    delivers_justified (check_alerts db cm device temp_c now).1 seen
      (check_alerts db cm device temp_c now).2 :=
  check_alerts_go_justified cm device temp_c now
    (check_alerts db cm device temp_c now).1
    (activeRulesFor db device) db seen (fun _ hx => hx)

theorem persist_telemetry_justified (db : DB) (cm : ConnectionManager)
    (did : String) (q : ℚ) (rAt now : Int) :
    delivers_justified (persist_telemetry db cm did q rAt now).1 []
      (persist_telemetry db cm did q rAt now).2 := by
  cases hfind : db.devices.find? (fun d => d.device_id == did) with
  | some d =>
    simp only [persist_telemetry, hfind]
    rw [delivers_justified_append, delivers_justified_append,
      delivers_justified_append]
    refine ⟨⟨⟨?_, ?_⟩, ?_⟩, ?_⟩
    · refine delivers_justified_of_forall _ _ _ ?_
      intro e he
      simp only [List.nil_append, List.mem_singleton] at he
      subst he; trivial
    · refine delivers_justified_of_forall _ _ _ ?_
      intro e he
      obtain ⟨dd, hd, rfl⟩ := mem_deliveries _ _ e he
      rw [broadcast_to_device_snd cm did _ dd hd]
      refine ⟨⟨db.nextTelemetryId, d.id, q, rAt⟩, by simp, rfl, rfl, ?_⟩
      rw [check_alerts_telemetry]
      exact List.mem_append_right _ (by simp)
    · refine delivers_justified_of_forall _ _ _ ?_
      intro e he
      obtain ⟨dd, hd, rfl⟩ := mem_deliveries _ _ e he
      rw [broadcast_to_device_snd cm "all" _ dd hd]
      refine ⟨⟨db.nextTelemetryId, d.id, q, rAt⟩, by simp, rfl, rfl, ?_⟩
      rw [check_alerts_telemetry]
      exact List.mem_append_right _ (by simp)
    · exact check_alerts_justified _ cm d q now _
  | none =>
    simp only [persist_telemetry, hfind]
    rw [delivers_justified_append, delivers_justified_append,
      delivers_justified_append]
    refine ⟨⟨⟨?_, ?_⟩, ?_⟩, ?_⟩
    · refine delivers_justified_of_forall _ _ _ ?_
      intro e he
      simp only [List.mem_append, List.mem_singleton] at he
      rcases he with he | he <;> (subst he; trivial)
    · refine delivers_justified_of_forall _ _ _ ?_
      intro e he
      obtain ⟨dd, hd, rfl⟩ := mem_deliveries _ _ e he
      rw [broadcast_to_device_snd cm did _ dd hd]
      refine ⟨⟨db.nextTelemetryId, db.nextDeviceId, q, rAt⟩, by simp, rfl, rfl, ?_⟩
      rw [check_alerts_telemetry]
      exact List.mem_append_right _ (by simp)
    · refine delivers_justified_of_forall _ _ _ ?_
      intro e he
      obtain ⟨dd, hd, rfl⟩ := mem_deliveries _ _ e he
      rw [broadcast_to_device_snd cm "all" _ dd hd]
      refine ⟨⟨db.nextTelemetryId, db.nextDeviceId, q, rAt⟩, by simp, rfl, rfl, ?_⟩
      rw [check_alerts_telemetry]
      exact List.mem_append_right _ (by simp)
    · exact check_alerts_justified _ cm _ q now _

/-- C2: in the trace of processing any inbound message, every successful
broadcast delivery is preceded by the flush of the row it reports — the
Reading for a `telemetry` event, the Alert for an `alert` event — and that
row is present in the final database state of the processing: broadcast
happens only after persistence, and a viewer never observes a Reading or
Alert that did not make it to storage. -/
theorem broadcast_only_after_persist (parseIso : String → Option Int)
    (now : Int) (db : DB) (cm : ConnectionManager) (msg : MqttMessage) :
    delivers_justified (handle_message parseIso now db cm msg).1 []
      (handle_message parseIso now db cm msg).2 := by
  unfold handle_message
  dsimp only
  repeat' (first | trivial | split)
  rw [delivers_justified_append]
  exact ⟨persist_telemetry_justified db cm _ _ _ now, ⟨trivial, trivial⟩⟩

end EggGuardian
